import Mathlib

/-!
Verification of the pide shared-selection protocol.

This development is a shallow embedding of the core of the pide repository:
the shared selection file (`~/.pi/ide-selection.json`), the reader side in
`src/index.ts` (`readSelectionFile`, `writeSelectionFile`,
`checkForFileChanges`, `formatSelectionForContext`) and the writer side in
`src/vscode-plugin/src/extension.ts` (`sendSelection`) and in the JetBrains
`PiSelectionService` (`sendSelection`, `writeSelection`).

Filesystem state is passed explicitly: `FsEnv` carries the current content of
the selection file, whether the `~/.pi` directory exists, and failure flags
for the filesystem primitives.  JavaScript/Kotlin exceptions are modelled with
`Except`: each `...Body` definition is the body of the corresponding source
function without its try/catch, and the undecorated definition adds the
catch exactly where the source has it.
-/

namespace Pide

/-- Fields of the JSON object obtained by `JSON.parse` on the selection file.
`readSelectionFile` in `src/index.ts` performs no shape validation, so every
field is optional here, including `file`.  A field holds `some v` when the
JSON object carries a value of the expected type for that key and `none` when
the key is absent or holds a non-usable (falsy) value such as `null`; note
that JSON itself cannot encode `NaN`. -/
structure SelData where
  file : Option String
  selection : Option String
  startLine : Option Int
  endLine : Option Int
  ide : Option String
  timestamp : Option Int
deriving DecidableEq

/-- Content of the selection file: the raw bytes (compared byte-for-byte by
`checkForFileChanges`) together with the outcome of `JSON.parse` on them:
`parsed = none` means `JSON.parse` throws (malformed JSON), `parsed = some d`
means it yields an object with fields `d`. -/
structure ContentV where
  raw : String
  parsed : Option SelData
deriving DecidableEq

/-- Explicit filesystem state.  `fs = none` models absence of
`~/.pi/ide-selection.json`; the `...Fails` flags decide whether the
corresponding filesystem primitive throws when invoked. -/
structure FsEnv where
  fs : Option ContentV
  dirExists : Bool
  readFails : Bool
  writeFails : Bool
  unlinkFails : Bool
  mkdirFails : Bool
deriving DecidableEq

/-- A thrown JavaScript (or JVM) exception, abstracted to a single value. -/
inductive JsErr
  | err
deriving DecidableEq

/-- The reader-side module state of `src/index.ts`: the globals
`currentSelection` and `lastFileContent`. -/
structure ReaderState where
  currentSelection : Option SelData
  lastFileContent : Option String
deriving DecidableEq

/-- The staleness filter inside `readSelectionFile`:
`if (data.timestamp && Date.now() - data.timestamp > 3600000) return null;
return data;`.  JavaScript truthiness: an absent timestamp and the number `0`
are falsy, so the subtraction is never evaluated for them. -/
def staleCheck (now : Int) (d : SelData) : Option SelData :=
  match d.timestamp with
  | some t => if t ≠ 0 ∧ now - t > 3600000 then none else some d
  | none => some d

/-- Body of `readSelectionFile` (src/index.ts) without its try/catch:
`existsSync` (never throws), `readFileSync` (throws per `readFails`),
`JSON.parse` (throws when the content is malformed), then the staleness
filter.  When the file does not exist control falls through to `return null`. -/
def readSelectionFileBody (now : Int) (env : FsEnv) : Except JsErr (Option SelData) :=
  match env.fs with
  | none => .ok none
  | some c =>
      if env.readFails then .error .err
      else
        match c.parsed with
        | none => .error .err
        | some d => .ok (staleCheck now d)

/-- `readSelectionFile` (src/index.ts): the body wrapped in the source's
try/catch, whose handler falls through to `return null`. -/
def readSelectionFile (now : Int) (env : FsEnv) : Option SelData :=
  match readSelectionFileBody now env with
  | .ok r => r
  | .error _ => none

/-- Caller-visible outcome of `readSelectionFile`: `.error` would mean an
exception escapes to the caller. -/
def readSelectionFileE (now : Int) (env : FsEnv) : Except JsErr (Option SelData) :=
  match readSelectionFileBody now env with
  | .ok r => .ok r
  | .error _ => .ok none

/-- Tail of `checkForFileChanges` (src/index.ts) once the raw content has been
read: compare against `lastFileContent`; if unchanged do nothing, otherwise
record the new raw content, re-read through `readSelectionFile`, and (when a
context is attached) call `updateStatus`.  The boolean reports whether the
update-and-notify branch ran. -/
def updateIfChanged (now : Int) (env : FsEnv) (st : ReaderState)
    (newContent : Option String) : ReaderState × Bool :=
  if newContent ≠ st.lastFileContent then
    ({ currentSelection := readSelectionFile now env,
       lastFileContent := newContent }, true)
  else
    (st, false)

/-- Body of `checkForFileChanges` (src/index.ts) without its try/catch:
read the raw content (absence yields `null`, a read failure throws), then
`updateIfChanged`.  The inner `readSelectionFile` call has its own catch and
therefore never throws out of the body. -/
def checkForFileChangesBody (now : Int) (env : FsEnv) (st : ReaderState) :
    Except JsErr (ReaderState × Bool) :=
  match env.fs with
  | none => .ok (updateIfChanged now env st none)
  | some c =>
      if env.readFails then .error .err
      else .ok (updateIfChanged now env st (some c.raw))

/-- `checkForFileChanges` (src/index.ts): the body wrapped in the source's
try/catch (`// Ignore read errors`), which leaves the state untouched. -/
def checkForFileChanges (now : Int) (env : FsEnv) (st : ReaderState) :
    ReaderState × Bool :=
  match checkForFileChangesBody now env st with
  | .ok r => r
  | .error _ => (st, false)

/-- Caller-visible outcome of `checkForFileChanges`. -/
def checkForFileChangesE (now : Int) (env : FsEnv) (st : ReaderState) :
    Except JsErr (ReaderState × Bool) :=
  match checkForFileChangesBody now env st with
  | .ok r => .ok r
  | .error _ => .ok (st, false)

/-- The `IDESelection` interface of `src/index.ts`: `file` and `timestamp`
required, the rest optional. -/
structure IDESelection where
  file : String
  selection : Option String
  startLine : Option Int
  endLine : Option Int
  ide : Option String
  timestamp : Int
deriving DecidableEq

/-- The parsed fields recovered from a serialized `IDESelection` (the JSON
library round-trips every field unchanged). -/
def IDESelection.toData (s : IDESelection) : SelData :=
  { file := some s.file
    selection := s.selection
    startLine := s.startLine
    endLine := s.endLine
    ide := s.ide
    timestamp := some s.timestamp }

/-- Four-digit lowercase hexadecimal, as used by `JSON.stringify` for control
characters (`\u00XX`). -/
def hex4 (n : Nat) : String :=
  String.mk [Nat.digitChar (n / 4096 % 16), Nat.digitChar (n / 256 % 16),
             Nat.digitChar (n / 16 % 16), Nat.digitChar (n % 16)]

/-- Escaping of one character inside a JSON string literal, following
`JSON.stringify`. -/
def jsonEscapeChar (c : Char) : String :=
  if c = '\\' then "\\\\"
  else if c = '"' then "\\\""
  else if c = '\n' then "\\n"
  else if c = '\r' then "\\r"
  else if c = '\t' then "\\t"
  else if c = '\x08' then "\\b"
  else if c = '\x0c' then "\\f"
  else if c.toNat < 32 then "\\u" ++ hex4 c.toNat
  else String.singleton c

/-- A JSON string literal for `s`, following `JSON.stringify`. -/
def jsonStr (s : String) : String :=
  "\"" ++ String.join (s.toList.map jsonEscapeChar) ++ "\""

/-- One `  "key": value` line of `JSON.stringify(x, null, 2)`. -/
def encodeField (k : String) (v : String) : String :=
  "  " ++ jsonStr k ++ ": " ++ v

/-- `JSON.stringify(selection, null, 2)` for an `IDESelection`: keys in the
insertion order of the object literals building these records in the source
(`file`, `selection`, `startLine`, `endLine`, `ide`, `timestamp`); keys whose
value is `undefined` are skipped by `JSON.stringify`. -/
def encodeSelection (s : IDESelection) : String :=
  let fields : List (Option String) :=
    [some (encodeField ("file") (jsonStr s.file)),
     s.selection.map (fun t => encodeField ("selection") (jsonStr t)),
     s.startLine.map (fun n => encodeField ("startLine") (toString n)),
     s.endLine.map (fun n => encodeField ("endLine") (toString n)),
     s.ide.map (fun t => encodeField ("ide") (jsonStr t)),
     some (encodeField ("timestamp") (toString s.timestamp))]
  "\x7b\n" ++ String.intercalate (",\n") (fields.filterMap id) ++ "\n\x7d"

/-- The file content produced by
`fs.writeFileSync(SELECTION_FILE, JSON.stringify(selection, null, 2))`.
The `parsed` component records the JSON library's round-trip guarantee:
parsing the serialization of `s` recovers exactly the fields of `s`. -/
def writtenContent (s : IDESelection) : ContentV :=
  { raw := encodeSelection s, parsed := some s.toData }

/-- The `if (!fs.existsSync(PI_DIR)) fs.mkdirSync(PI_DIR, ...)` preamble of
`writeSelectionFile`. -/
def ensurePiDir (env : FsEnv) : Except (JsErr × FsEnv) FsEnv :=
  if env.dirExists then .ok env
  else if env.mkdirFails then .error (.err, env)
  else .ok { env with dirExists := true }

/-- Body of `writeSelectionFile` (src/index.ts) without its try/catch: ensure
the directory, then either write the serialized record or, for `null`, unlink
the file if it exists.  A thrown error carries the filesystem state at the
moment of the throw. -/
def writeSelectionFileBody (env : FsEnv) (sel : Option IDESelection) :
    Except (JsErr × FsEnv) FsEnv :=
  match ensurePiDir env with
  | .error e => .error e
  | .ok env =>
      match sel with
      | some s =>
          if env.writeFails then .error (.err, env)
          else .ok { env with fs := some (writtenContent s) }
      | none =>
          match env.fs with
          | some _ =>
              if env.unlinkFails then .error (.err, env)
              else .ok { env with fs := none }
          | none => .ok env

/-- `writeSelectionFile` (src/index.ts): the body wrapped in the source's
try/catch, whose handler only logs (`console.error`). -/
def writeSelectionFile (env : FsEnv) (sel : Option IDESelection) : FsEnv :=
  match writeSelectionFileBody env sel with
  | .ok e => e
  | .error (_, e) => e

/-- Caller-visible outcome of `writeSelectionFile`. -/
def writeSelectionFileE (env : FsEnv) (sel : Option IDESelection) :
    Except JsErr FsEnv :=
  match writeSelectionFileBody env sel with
  | .ok e => .ok e
  | .error (_, e) => .ok e

/-- `formatSelectionForContext` (src/index.ts): a URL-style reference with a
line suffix only when both `startLine` and `endLine` are defined, prefixed by
the word `Referencing`. -/
def formatSelectionForContext (selection : IDESelection) : String :=
  let fileRef := selection.file
  let fileRef :=
    match selection.startLine, selection.endLine with
    | some a, some b =>
        if a = b then fileRef ++ ":" ++ toString a
        else fileRef ++ ":" ++ toString a ++ "-" ++ toString b
    | _, _ => fileRef
  "Referencing " ++ fileRef

/-- The editor-side facts `doSend` in `src/vscode-plugin/src/extension.ts`
reads from the active editor when the debounce timer fires: whether the
selection is empty, its text, and the 0-based start and end lines (a VS Code
`Selection` always has `start ≤ end`). -/
structure VsEditorSelection where
  isEmpty : Bool
  text : String
  startLine0 : Nat
  endLine0 : Nat
deriving DecidableEq

/-- The `SelectionData` record built by `doSend`
(src/vscode-plugin/src/extension.ts): `file`, `ide` and `timestamp` always,
and `selection`/`startLine`/`endLine` (1-based) exactly when the editor
selection is non-empty. -/
def vsDoSendData (fsPath : String) (now : Int) (sel : VsEditorSelection) :
    IDESelection :=
  if sel.isEmpty then
    { file := fsPath, selection := none, startLine := none, endLine := none,
      ide := some ("vscode"), timestamp := now }
  else
    { file := fsPath, selection := some sel.text,
      startLine := some ((sel.startLine0 : Int) + 1),
      endLine := some ((sel.endLine0 : Int) + 1),
      ide := some ("vscode"), timestamp := now }

/-- Arguments of `PiSelectionService.sendSelection` /
`PiSelectionService.writeSelection` in the JetBrains plugin: `file = none`
models a null `VirtualFile` (which makes `writeSelection` delete the shared
file). -/
structure JbCall where
  file : Option String
  selection : Option String
  startLine : Option Int
  endLine : Option Int
deriving DecidableEq

/-- `escapeJson` of `PiSelectionService`: escapes backslash, quote, newline,
carriage return and tab. -/
def escapeJson (s : String) : String :=
  String.join (s.toList.map fun c =>
    if c = '\\' then "\\\\"
    else if c = '"' then "\\\""
    else if c = '\n' then "\\n"
    else if c = '\r' then "\\r"
    else if c = '\t' then "\\t"
    else String.singleton c)

/-- The JSON text assembled by `buildString` in
`PiSelectionService.writeSelection`: `file`, `ide`, `timestamp` always, and
`selection` plus any non-null line numbers only when the selection string is
neither null nor empty. -/
def jbSelectionJson (path ideName : String) (now : Int) (c : JbCall) : String :=
  let base := "\x7b\n  \"file\": \"" ++ escapeJson path ++ "\",\n  \"ide\": \""
    ++ escapeJson ideName ++ "\",\n  \"timestamp\": " ++ toString now
  let withSel :=
    match c.selection with
    | some sel =>
        if sel ≠ "" then
          base ++ ",\n  \"selection\": \"" ++ escapeJson sel ++ "\""
            ++ (match c.startLine with
                | some a => ",\n  \"startLine\": " ++ toString a
                | none => "")
            ++ (match c.endLine with
                | some b => ",\n  \"endLine\": " ++ toString b
                | none => "")
        else base
    | none => base
  withSel ++ "\n\x7d"

/-- The parsed fields of the JSON text assembled by
`PiSelectionService.writeSelection` (its keys, by the JSON round-trip). -/
def jbWrittenData (path ideName : String) (now : Int) (c : JbCall) : SelData :=
  let hasSel : Bool := match c.selection with
    | some s => s ≠ ""
    | none => false
  { file := some path
    ide := some ideName
    timestamp := some now
    selection := if hasSel then c.selection else none
    startLine := if hasSel then c.startLine else none
    endLine := if hasSel then c.endLine else none }

/-- File content committed by `PiSelectionService.writeSelection` for a
non-null file. -/
def jbWrittenContent (path ideName : String) (now : Int) (c : JbCall) :
    ContentV :=
  { raw := jbSelectionJson path ideName now c
    parsed := some (jbWrittenData path ideName now c) }

/-- Body of `PiSelectionService.writeSelection` without its try/catch: a null
file deletes the shared file (`File.delete` reports failure by returning
`false`, without throwing), otherwise `writeText` commits the assembled JSON
(throwing per `writeFails`). -/
def jbWriteSelectionBody (ideName : String) (now : Int) (env : FsEnv)
    (c : JbCall) : Except (JsErr × FsEnv) FsEnv :=
  match c.file with
  | none =>
      if env.unlinkFails then .ok env else .ok { env with fs := none }
  | some path =>
      if env.writeFails then .error (.err, env)
      else .ok { env with fs := some (jbWrittenContent path ideName now c) }

/-- `PiSelectionService.writeSelection`: the body wrapped in the source's
try/catch (`// Ignore write errors`). -/
def jbWriteSelection (ideName : String) (now : Int) (env : FsEnv)
    (c : JbCall) : FsEnv :=
  match jbWriteSelectionBody ideName now env c with
  | .ok e => e
  | .error (_, e) => e

/-- Caller-visible outcome of `PiSelectionService.writeSelection`. -/
def jbWriteSelectionE (ideName : String) (now : Int) (env : FsEnv)
    (c : JbCall) : Except JsErr FsEnv :=
  match jbWriteSelectionBody ideName now env c with
  | .ok e => .ok e
  | .error (_, e) => .ok e

/-- State of the debouncing writer (`PiSelectionService`, and likewise
`sendSelection` in the VS Code extension): the pending timer task, if any, as
its absolute deadline together with the captured arguments; the filesystem;
and the chronological log of commits (executions of `writeSelection`). -/
structure JbState where
  pending : Option (Int × JbCall)
  env : FsEnv
  commits : List JbCall
deriving DecidableEq

/-- Execution of the pending timer task, if one is scheduled: run
`writeSelection` with the captured arguments (timestamping at the deadline)
and log the commit. -/
def jbFire (ideName : String) (st : JbState) : JbState :=
  match st.pending with
  | none => st
  | some (fireAt, c) =>
      { pending := none
        env := jbWriteSelection ideName fireAt st.env c
        commits := st.commits ++ [c] }

/-- The timer's own behaviour between events: a pending task whose deadline
has been reached has already executed by time `now`. -/
def jbFireIfDue (ideName : String) (now : Int) (st : JbState) : JbState :=
  match st.pending with
  | some (fireAt, _) => if fireAt ≤ now then jbFire ideName st else st
  | none => st

/-- `PiSelectionService.sendSelection` called at time `now`: any not-yet-due
pending task is cancelled (`debounceTimer?.cancel()`; a task already past its
deadline executed beforehand) and a fresh task carrying the new arguments is
scheduled `debounceMs` from now (`timer.schedule(100)` in the JetBrains
source; the VS Code `sendSelection` uses the configurable `pide.debounceMs`,
default 100, with the same cancel-and-reschedule discipline). -/
def jbSendSelection (ideName : String) (debounceMs now : Int) (c : JbCall)
    (st : JbState) : JbState :=
  let st := jbFireIfDue ideName now st
  { st with pending := some (now + debounceMs, c) }

/-- A burst of `sendSelection` calls, processed in order. -/
def jbRunCalls (ideName : String) (debounceMs : Int) :
    List (Int × JbCall) → JbState → JbState
  | [], st => st
  | (t, c) :: rest, st =>
      jbRunCalls ideName debounceMs rest (jbSendSelection ideName debounceMs t c st)

/-- `callsClose debounceMs prev calls` holds when the calls in `calls` come in
nondecreasing time order, the first strictly less than `debounceMs` after
`prev`, and each subsequent one strictly less than `debounceMs` after its
predecessor. -/
def callsClose (debounceMs : Int) : Int → List (Int × JbCall) → Bool
  | _, [] => true
  | prev, (t, _) :: rest =>
      decide (prev ≤ t) && decide (t < prev + debounceMs) &&
        callsClose debounceMs t rest

/-- The `sendSelection` arguments produced by the `selectionChanged` listener
in `PiStartupActivity`: with a selection, the selected text and the 1-based
lines of the selection offsets; without one, null text and lines. -/
def jbSelectionChangedCall (file : Option String) (hasSel : Bool)
    (selText : String) (startLine0 endLine0 : Nat) : JbCall :=
  if hasSel then
    { file := file, selection := some selText,
      startLine := some ((startLine0 : Int) + 1),
      endLine := some ((endLine0 : Int) + 1) }
  else
    { file := file, selection := none, startLine := none, endLine := none }

/-- Well-formedness of a committed record: `startLine` and `endLine` are both
present exactly when `selection` is, and `endLine ≥ startLine` when the lines
are present. -/
def SelData.wellFormedb (d : SelData) : Bool :=
  ((d.startLine.isSome && d.endLine.isSome) == d.selection.isSome) &&
    (match d.startLine, d.endLine with
     | some a, some b => decide (a ≤ b)
     | _, _ => true)

/-- C3 counterexample: on `{file: "/a/b.ts", startLine: 10, endLine: 10}` the
string produced for insertion is `Referencing /a/b.ts:10`, not the bare
`/a/b.ts:10` the claim states. -/
theorem format_reference_counterexample :
    formatSelectionForContext ⟨"/a/b.ts", none, some 10, some 10, none, 0⟩ ≠
      "/a/b.ts:10" ∧
    formatSelectionForContext ⟨"/a/b.ts", none, some 10, some 10, none, 0⟩ =
      "Referencing /a/b.ts:10" := by
  constructor
  · decide
  · rfl

/-- C3 (amended): the string produced for insertion is `Referencing `
followed by the record's `file`, with `:line` appended when `startLine` and
`endLine` are both present and equal, `:startLine-endLine` appended when both
are present and differ, and no suffix when either line bound is absent. -/
theorem format_reference_amended (s : IDESelection) :
    (∀ a b : Int, s.startLine = some a → s.endLine = some b → a = b →
        formatSelectionForContext s =
          "Referencing " ++ s.file ++ ":" ++ toString a) ∧
    (∀ a b : Int, s.startLine = some a → s.endLine = some b → a ≠ b →
        formatSelectionForContext s =
          "Referencing " ++ s.file ++ ":" ++ toString a ++ "-" ++ toString b) ∧
    ((s.startLine = none ∨ s.endLine = none) →
        formatSelectionForContext s = "Referencing " ++ s.file) := by
  refine ⟨?_, ?_, ?_⟩
  · intro a b ha hb hab
    simp [formatSelectionForContext, ha, hb, hab, String.append_assoc]
  · intro a b ha hb hab
    simp [formatSelectionForContext, ha, hb, hab, String.append_assoc]
  · rintro (h | h)
    · cases hb : s.endLine <;> simp [formatSelectionForContext, h, hb]
    · cases ha : s.startLine <;> simp [formatSelectionForContext, h, ha]

/-- C3 witness: the amended statement evaluated on the three records of the
spec's formatting examples. -/
theorem format_reference_amended_witness :
    formatSelectionForContext ⟨"/a/b.ts", none, some 10, some 10, none, 0⟩ =
      "Referencing " ++ "/a/b.ts" ++ ":" ++ toString (10 : Int) ∧
    formatSelectionForContext ⟨"/a/b.ts", none, some 10, some 15, none, 0⟩ =
      "Referencing " ++ "/a/b.ts" ++ ":" ++ toString (10 : Int) ++ "-" ++
        toString (15 : Int) ∧
    formatSelectionForContext ⟨"/a/b.ts", none, none, none, none, 0⟩ =
      "Referencing " ++ "/a/b.ts" :=
  ⟨(format_reference_amended ⟨"/a/b.ts", none, some 10, some 10, none, 0⟩).1
      10 10 rfl rfl rfl,
   (format_reference_amended ⟨"/a/b.ts", none, some 10, some 15, none, 0⟩).2.1
      10 15 rfl rfl (by decide),
   (format_reference_amended ⟨"/a/b.ts", none, none, none, none, 0⟩).2.2
      (Or.inl rfl)⟩

/-- C10: a parsed record whose `timestamp` field is absent or holds the falsy
number `0` is returned as present by `readSelectionFile`, whatever the
current time: the staleness subtraction is guarded by JavaScript truthiness
of `data.timestamp`. -/
theorem falsy_timestamp_not_filtered (now : Int) (env : FsEnv) (c : ContentV)
    (d : SelData) (hfs : env.fs = some c) (hrf : env.readFails = false)
    (hp : c.parsed = some d)
    (ht : d.timestamp = none ∨ d.timestamp = some 0) :
    readSelectionFile now env = some d := by
  unfold readSelectionFile readSelectionFileBody staleCheck
  rw [hfs, hrf]
  rcases ht with h | h <;> simp [hp, h]

/-- C10 witness: a record with timestamp `0` — almost 56 years stale in 2026 —
is still read back as present. -/
theorem falsy_timestamp_not_filtered_witness :
    readSelectionFile 1760000000000
      ⟨some ⟨"z", some ⟨some ("/a"), none, none, none, none, some 0⟩⟩,
       true, false, false, false, false⟩ =
      some ⟨some ("/a"), none, none, none, none, some 0⟩ :=
  falsy_timestamp_not_filtered 1760000000000 _ _ _ rfl rfl rfl (Or.inr rfl)

/-- C2 counterexample: a record whose `timestamp` is `0` is older than one
hour at `now = 7200000` (two hours since the epoch), yet `readSelectionFile`
returns it as present, because `0` is falsy and skips the staleness filter —
so the claim's universal staleness statement fails. -/
theorem staleness_zero_timestamp_counterexample :
    (7200000 : Int) - 0 > 3600000 ∧
    readSelectionFile 7200000
      ⟨some ⟨"raw0", some ⟨some ("/a"), none, none, none, none, some 0⟩⟩,
       true, false, false, false, false⟩ =
      some ⟨some ("/a"), none, none, none, none, some 0⟩ := by
  constructor
  · decide
  · rfl

/-- C2 (amended): a record whose `timestamp` is nonzero and older than one
hour is read back as `none`; and a record written by `writeSelectionFile`
whose timestamp is within the one-hour bound is read back with identical
field values. -/
theorem staleness_filter_roundtrip (now : Int) (env : FsEnv) :
    (∀ (c : ContentV) (d : SelData) (t : Int),
        env.fs = some c → env.readFails = false → c.parsed = some d →
        d.timestamp = some t → t ≠ 0 → now - t > 3600000 →
        readSelectionFile now env = none) ∧
    (∀ sel : IDESelection,
        env.writeFails = false →
        (env.dirExists = true ∨ env.mkdirFails = false) →
        env.readFails = false →
        now - sel.timestamp ≤ 3600000 →
        readSelectionFile now (writeSelectionFile env (some sel)) =
          some ⟨some sel.file, sel.selection, sel.startLine, sel.endLine,
                sel.ide, some sel.timestamp⟩) := by
  constructor
  · intro c d t hfs hrf hp ht ht0 hgt
    unfold readSelectionFile readSelectionFileBody staleCheck
    rw [hfs, hrf]
    simp [hp, ht, ht0, hgt]
  · intro sel hwf hdir hrf hts
    have hw : writeSelectionFile env (some sel) =
        { env with dirExists := true, fs := some (writtenContent sel) } := by
      unfold writeSelectionFile writeSelectionFileBody ensurePiDir
      rcases hdir with hd | hm
      · simp [hd, hwf]
      · cases hde : env.dirExists <;> simp [hm, hwf, hde]
    rw [hw]
    unfold readSelectionFile readSelectionFileBody staleCheck
    simp [hrf, writtenContent, IDESelection.toData]
    intro h
    omega

/-- C2 witness: the amended statement on concrete data — a two-hour-old
record reads back as absent, and a one-minute-old record written through
`writeSelectionFile` reads back with identical fields. -/
theorem staleness_filter_roundtrip_witness :
    readSelectionFile 7200000
      ⟨some ⟨"r1", some ⟨some ("/a"), none, none, none, none, some 1⟩⟩,
       true, false, false, false, false⟩ = none ∧
    readSelectionFile 1060000
      (writeSelectionFile ⟨none, false, false, false, false, false⟩
        (some ⟨"/p/x.py", some ("print(1)"), some 3, some 3, some ("vscode"),
               1000000⟩)) =
      some ⟨some ("/p/x.py"), some ("print(1)"), some 3, some 3,
            some ("vscode"), some 1000000⟩ :=
  ⟨(staleness_filter_roundtrip 7200000 _).1 _ _ 1 rfl rfl rfl rfl
      (by decide) (by decide),
   (staleness_filter_roundtrip 1060000 _).2
      ⟨"/p/x.py", some ("print(1)"), some 3, some 3, some ("vscode"), 1000000⟩
      rfl (Or.inr rfl) rfl (by decide)⟩

/-- C1 counterexample: the selection file holds the malformed content
`{not json`, different from the last-seen raw content, and the reader held a
record; after `checkForFileChanges` the held value is cleared to `none`
rather than kept. -/
theorem malformed_refresh_counterexample :
    (checkForFileChanges 0
        ⟨some ⟨"\x7bnot json", none⟩, true, false, false, false, false⟩
        ⟨some ⟨some ("/old.ts"), none, none, none, none, some 1⟩, none⟩).1.currentSelection ≠
      (⟨some ⟨some ("/old.ts"), none, none, none, none, some 1⟩, none⟩ :
        ReaderState).currentSelection := by
  decide

/-- C1 (amended): on a refresh that finds raw content differing from the
last-seen raw content, the reader throws no error, records the new raw
content as last seen, and: if the content fails JSON parsing, the held
current value is cleared to `none` (not preserved); if the content parses but
merely lacks the `file` field, it is not treated as malformed — the parsed
record, filtered for staleness, becomes the held value. -/
theorem malformed_refresh_clears (now : Int) (env : FsEnv) (st : ReaderState)
    (c : ContentV) (hfs : env.fs = some c) (hrf : env.readFails = false) :
    (checkForFileChangesE now env st).isOk = true ∧
    (c.parsed = none → some c.raw ≠ st.lastFileContent →
        checkForFileChanges now env st = (⟨none, some c.raw⟩, true)) ∧
    (∀ d : SelData, c.parsed = some d → d.file = none →
        some c.raw ≠ st.lastFileContent →
        checkForFileChanges now env st = (⟨staleCheck now d, some c.raw⟩, true)) := by
  refine ⟨?_, ?_, ?_⟩
  · unfold checkForFileChangesE
    split <;> rfl
  · intro hp hne
    unfold checkForFileChanges checkForFileChangesBody updateIfChanged
    rw [hfs, hrf]
    unfold readSelectionFile readSelectionFileBody
    rw [hfs, hrf]
    simp [hp, hne]
  · intro d hp hfile hne
    unfold checkForFileChanges checkForFileChangesBody updateIfChanged
    rw [hfs, hrf]
    unfold readSelectionFile readSelectionFileBody
    rw [hfs, hrf]
    simp [hp, hne]

/-- C1 witness: the amended statement on the spec's `{not json` example and
on content lacking the `file` field. -/
theorem malformed_refresh_clears_witness :
    checkForFileChanges 0
        ⟨some ⟨"\x7bnot json", none⟩, true, false, false, false, false⟩
        ⟨some ⟨some ("/old.ts"), none, none, none, none, some 1⟩, none⟩ =
      (⟨none, some ("\x7bnot json")⟩, true) ∧
    checkForFileChanges 0
        ⟨some ⟨"\x7b\x7d", some ⟨none, none, none, none, none, none⟩⟩,
         true, false, false, false, false⟩
        ⟨none, none⟩ =
      (⟨staleCheck 0 ⟨none, none, none, none, none, none⟩, some ("\x7b\x7d")⟩,
        true) :=
  ⟨(malformed_refresh_clears 0 _ _ _ rfl rfl).2.1 rfl (by decide),
   (malformed_refresh_clears 0 _ _ _ rfl rfl).2.2
      ⟨none, none, none, none, none, none⟩ rfl rfl (by decide)⟩

/-- C6: two consecutive refreshes over the same filesystem content trigger at
most one reader-visible update — the second refresh leaves the reader state
unchanged and does not call `updateStatus`, whatever the first one did. -/
theorem change_suppression (now1 now2 : Int) (env : FsEnv) (st : ReaderState) :
    checkForFileChanges now2 env (checkForFileChanges now1 env st).1 =
      ((checkForFileChanges now1 env st).1, false) := by
  obtain ⟨fs, de, rf, wf, uf, mf⟩ := env
  cases fs with
  | none =>
    by_cases h : (none : Option String) = st.lastFileContent <;>
      simp [checkForFileChanges, checkForFileChangesBody, updateIfChanged, h]
  | some c =>
    cases rf with
    | true =>
      simp [checkForFileChanges, checkForFileChangesBody]
    | false =>
      by_cases h : (some c.raw : Option String) = st.lastFileContent <;>
        simp [checkForFileChanges, checkForFileChangesBody, updateIfChanged, h]

/-- C7: clearing is safe and idempotent — with the shared file already
absent, `writeSelectionFile(null)` leaves it absent; it never lets an error
escape to its caller; and running it twice ends in the same state as running
it once. -/
theorem clear_idempotent (env : FsEnv) :
    (env.fs = none → (writeSelectionFile env none).fs = none) ∧
    (writeSelectionFileE env none).isOk = true ∧
    writeSelectionFile (writeSelectionFile env none) none =
      writeSelectionFile env none := by
  obtain ⟨fs, de, rf, wf, uf, mf⟩ := env
  refine ⟨?_, ?_, ?_⟩
  · intro h
    cases de <;> cases mf <;>
      simp_all [writeSelectionFile, writeSelectionFileBody, ensurePiDir]
  · unfold writeSelectionFileE
    split <;> rfl
  · cases de <;> cases mf <;> cases uf <;> cases fs <;>
      simp [writeSelectionFile, writeSelectionFileBody, ensurePiDir]

/-- C7 witness: clearing an absent file from a missing directory — it stays
absent and the repeated clear reaches the same state. -/
theorem clear_idempotent_witness :
    (writeSelectionFile ⟨none, false, false, false, false, false⟩ none).fs =
      none :=
  (clear_idempotent ⟨none, false, false, false, false, false⟩).1 rfl

/-- C9: no filesystem failure ever escapes the core as an exception — the
caller-visible outcomes of the writer's commit and delete
(`writeSelectionFile` with a record and with `null`, and the JetBrains
`writeSelection`) and of the reader's refresh and read
(`checkForFileChanges`, `readSelectionFile`) are `.ok` for every filesystem
state and failure combination. -/
theorem errors_never_propagate (env : FsEnv) (sel : IDESelection) (now : Int)
    (st : ReaderState) (ideName : String) (c : JbCall) :
    (writeSelectionFileE env (some sel)).isOk = true ∧
    (writeSelectionFileE env none).isOk = true ∧
    (readSelectionFileE now env).isOk = true ∧
    (checkForFileChangesE now env st).isOk = true ∧
    (jbWriteSelectionE ideName now env c).isOk = true := by
  refine ⟨?_, ?_, ?_, ?_, ?_⟩ <;>
    first
    | (unfold writeSelectionFileE; split <;> rfl)
    | (unfold readSelectionFileE; split <;> rfl)
    | (unfold checkForFileChangesE; split <;> rfl)
    | (unfold jbWriteSelectionE; split <;> rfl)

/-- C8: records committed by the writers are well-formed.  For the VS Code
`doSend` record this holds whenever the editor selection satisfies VS Code's
`start ≤ end` invariant; for the JetBrains pipeline
(`selectionChanged` feeding `writeSelection`) it holds whenever the editor's
selection offsets are ordered. -/
theorem committed_records_well_formed (fsPath : String) (now : Int)
    (sel : VsEditorSelection) (hvs : sel.startLine0 ≤ sel.endLine0)
    (path ideName : String) (tnow : Int) (hasSel : Bool) (selText : String)
    (sl0 el0 : Nat) (hjb : sl0 ≤ el0) :
    SelData.wellFormedb (vsDoSendData fsPath now sel).toData = true ∧
    SelData.wellFormedb
      (jbWrittenData path ideName tnow
        (jbSelectionChangedCall (some path) hasSel selText sl0 el0)) = true := by
  constructor
  · cases he : sel.isEmpty <;>
      simp [vsDoSendData, IDESelection.toData, SelData.wellFormedb, he]
    omega
  · cases hasSel with
    | false =>
      simp [jbSelectionChangedCall, jbWrittenData, SelData.wellFormedb]
    | true =>
      by_cases hst : selText = "" <;>
        simp [jbSelectionChangedCall, jbWrittenData, SelData.wellFormedb, hst]
      omega

/-- C8 witness: a concrete VS Code selection of lines 4–9 (0-based 3–8) and a
concrete JetBrains selection produce well-formed records. -/
theorem committed_records_well_formed_witness :
    SelData.wellFormedb
      (vsDoSendData ("/p/x.py") 1000 ⟨false, "txt", 3, 8⟩).toData = true ∧
    SelData.wellFormedb
      (jbWrittenData ("/p/y.kt") ("intellij") 2000
        (jbSelectionChangedCall (some ("/p/y.kt")) true ("sel") 1 5)) = true :=
  committed_records_well_formed ("/p/x.py") 1000 ⟨false, "txt", 3, 8⟩
    (by decide) ("/p/y.kt") ("intellij") 2000 true ("sel") 1 5 (by decide)

/-- During a burst of `sendSelection` calls that each arrive strictly before
the pending deadline, no timer fires: the calls only keep replacing the
pending task, whose deadline and payload end up those of the last call. -/
theorem jbRunCalls_close (ideName : String) (debounceMs : Int)
    (rest : List (Int × JbCall)) :
    ∀ (tprev : Int) (p : JbCall) (st : JbState),
      st.pending = some (tprev + debounceMs, p) →
      callsClose debounceMs tprev rest = true →
      jbRunCalls ideName debounceMs rest st =
        { st with pending := some ((rest.getLastD (tprev, p)).1 + debounceMs,
                                   (rest.getLastD (tprev, p)).2) } := by
  induction rest with
  | nil =>
    intro tprev p st hp _
    simp [jbRunCalls, List.getLastD, ← hp]
  | cons hd tl ih =>
    obtain ⟨t, c⟩ := hd
    intro tprev p st hp hc
    simp only [callsClose, Bool.and_eq_true, decide_eq_true_eq] at hc
    obtain ⟨⟨h1, h2⟩, h3⟩ := hc
    simp only [jbRunCalls, jbSendSelection, jbFireIfDue, hp,
      if_neg (by omega : ¬ tprev + debounceMs ≤ t)]
    rw [ih t c _ rfl h3]
    simp only [List.getLastD_cons]

/-- C4: a burst of `sendSelection` calls, each strictly within the debounce
window of its predecessor, commits nothing while the burst lasts (no leading
edge), leaves the last call's arguments pending, and — once the timer
finally fires — performs exactly one commit, a `writeSelection` of the
arguments of the last call. -/
theorem debounce_coalescing (ideName : String) (debounceMs : Int)
    (env0 : FsEnv) (t0 : Int) (c0 : JbCall) (rest : List (Int × JbCall))
    (tl : Int) (cl : JbCall)
    (hclose : callsClose debounceMs t0 rest = true)
    (hlast : rest.getLastD (t0, c0) = (tl, cl)) :
    (jbRunCalls ideName debounceMs rest
        (jbSendSelection ideName debounceMs t0 c0 ⟨none, env0, []⟩)).commits =
      [] ∧
    (jbRunCalls ideName debounceMs rest
        (jbSendSelection ideName debounceMs t0 c0 ⟨none, env0, []⟩)).pending =
      some (tl + debounceMs, cl) ∧
    jbFire ideName (jbRunCalls ideName debounceMs rest
        (jbSendSelection ideName debounceMs t0 c0 ⟨none, env0, []⟩)) =
      ⟨none, jbWriteSelection ideName (tl + debounceMs) env0 cl, [cl]⟩ := by
  have hsend : jbSendSelection ideName debounceMs t0 c0 ⟨none, env0, []⟩ =
      ⟨some (t0 + debounceMs, c0), env0, []⟩ := by
    simp [jbSendSelection, jbFireIfDue]
  rw [hsend, jbRunCalls_close ideName debounceMs rest t0 c0 _ rfl hclose,
    hlast]
  simp [jbFire]

/-- C4 witness: three calls at times 0, 50, 120 (gaps 50 and 70, each below
the 100 ms window) commit nothing during the burst and exactly the last
call's record when the timer fires at 220. -/
theorem debounce_coalescing_witness :
    callsClose 100 0
      [(50, ⟨some ("/b"), some ("x"), some 1, some 2⟩),
       (120, ⟨some ("/c"), some ("y"), some 2, some 5⟩)] = true ∧
    jbFire ("jetbrains") (jbRunCalls ("jetbrains") 100
        [(50, ⟨some ("/b"), some ("x"), some 1, some 2⟩),
         (120, ⟨some ("/c"), some ("y"), some 2, some 5⟩)]
        (jbSendSelection ("jetbrains") 100 0 ⟨some ("/a"), none, none, none⟩
          ⟨none, ⟨none, true, false, false, false, false⟩, []⟩)) =
      ⟨none,
       jbWriteSelection ("jetbrains") 220 ⟨none, true, false, false, false, false⟩
         ⟨some ("/c"), some ("y"), some 2, some 5⟩,
       [⟨some ("/c"), some ("y"), some 2, some 5⟩]⟩ :=
  ⟨by decide,
   (debounce_coalescing ("jetbrains") 100 ⟨none, true, false, false, false, false⟩
      0 ⟨some ("/a"), none, none, none⟩
      [(50, ⟨some ("/b"), some ("x"), some 1, some 2⟩),
       (120, ⟨some ("/c"), some ("y"), some 2, some 5⟩)]
      120 ⟨some ("/c"), some ("y"), some 2, some 5⟩
      (by decide) (by decide)).2.2⟩

/-- C5 counterexample: a focus-lost `sendSelection(null)` returns with the
shared file still present — the deletion is scheduled behind the same
debounce timer, not performed immediately as the claim states. -/
theorem focus_lost_not_immediate :
    (jbSendSelection ("jetbrains") 100 0 ⟨none, none, none, none⟩
        ⟨none, ⟨some ⟨"x", none⟩, true, false, false, false, false⟩, []⟩).env.fs ≠
      none := by
  decide

/-- C5 (amended): a focus-lost `sendSelection` with a null file cancels any
not-yet-due pending commit (committing nothing itself and leaving the
filesystem untouched) and schedules a debounced deletion; when that timer
fires, the shared file no longer exists, regardless of its prior content. -/
theorem focus_lost_debounced_delete (ideName : String) (debounceMs now : Int)
    (st : JbState)
    (hnd : ∀ (f : Int) (p : JbCall), st.pending = some (f, p) → now < f)
    (hul : st.env.unlinkFails = false) :
    (jbSendSelection ideName debounceMs now ⟨none, none, none, none⟩ st).commits =
      st.commits ∧
    (jbSendSelection ideName debounceMs now ⟨none, none, none, none⟩ st).env =
      st.env ∧
    (jbSendSelection ideName debounceMs now ⟨none, none, none, none⟩ st).pending =
      some (now + debounceMs, ⟨none, none, none, none⟩) ∧
    (jbFire ideName
        (jbSendSelection ideName debounceMs now ⟨none, none, none, none⟩ st)).env.fs =
      none := by
  have hnofire : jbFireIfDue ideName now st = st := by
    cases hp : st.pending with
    | none => simp [jbFireIfDue, hp]
    | some fp =>
      obtain ⟨f, p⟩ := fp
      have hf : ¬ f ≤ now := by
        have := hnd f p hp
        omega
      simp [jbFireIfDue, hp, hf]
  unfold jbSendSelection
  rw [hnofire]
  refine ⟨rfl, rfl, rfl, ?_⟩
  simp [jbFire, jbWriteSelection, jbWriteSelectionBody, hul]

/-- C5 witness: with no pending timer and a present shared file, the
focus-lost call leaves the file in place, and the later timer expiry removes
it. -/
theorem focus_lost_debounced_delete_witness :
    (jbSendSelection ("jetbrains") 100 0 ⟨none, none, none, none⟩
        ⟨none, ⟨some ⟨"x", none⟩, true, false, false, false, false⟩, []⟩).env =
      ⟨some ⟨"x", none⟩, true, false, false, false, false⟩ ∧
    (jbFire ("jetbrains")
        (jbSendSelection ("jetbrains") 100 0 ⟨none, none, none, none⟩
          ⟨none, ⟨some ⟨"x", none⟩, true, false, false, false, false⟩, []⟩)).env.fs =
      none :=
  ⟨(focus_lost_debounced_delete ("jetbrains") 100 0
      ⟨none, ⟨some ⟨"x", none⟩, true, false, false, false, false⟩, []⟩
      (fun f p h => by simp at h) rfl).2.1,
   (focus_lost_debounced_delete ("jetbrains") 100 0
      ⟨none, ⟨some ⟨"x", none⟩, true, false, false, false, false⟩, []⟩
      (fun f p h => by simp at h) rfl).2.2.2⟩

end Pide
